import Mathlib

/-!
Verification of the klartext backend (src/backend/src/app.ts), a thin HTTP
service with three endpoints: POST /simplify, GET /word-info, POST /feedback,
guarded by an origin-checking middleware. The TypeScript handlers are embedded
shallowly as pure Lean functions; external collaborators (the completion API,
the redis client, the PDF/Word extraction helpers, the URL validator and the
SHA-256 primitive) are modelled as oracle values or function parameters
carried in an environment record, exactly as the spec declares them out of
scope. JavaScript-specific behaviour (string truthiness, the logical-or on
possibly-missing header values, NaN comparisons, String.prototype.trim) is
embedded explicitly.
-/

namespace Klartext

/-- JavaScript truthiness of a possibly-absent string value: `undefined` and
the empty string are falsy, every other string is truthy. -/
def strTruthy : Option String → Bool
  | none => false
  | some s => s ≠ ""

/-- JavaScript logical-or on possibly-absent string values, as in
`req.headers.origin || req.headers.referer`: the left value is taken when
truthy, otherwise the right value. -/
def jsOr (a b : Option String) : Option String :=
  match a with
  | some s => if s = "" then b else some s
  | none => b

/-- The whitespace set of the JavaScript `String.prototype.trim`:
tab, line feed, vertical tab, form feed, carriage return, space, NBSP,
the Unicode space separators, the line separators, and the BOM. -/
def jsWhitespace (c : Char) : Bool :=
  c = '\t' ∨ c = '\n' ∨ c = (Char.ofNat 11) ∨ c = (Char.ofNat 12) ∨
  c = '\r' ∨ c = ' ' ∨ c = (Char.ofNat 160) ∨ c = (Char.ofNat 5760) ∨
  (8192 ≤ c.toNat ∧ c.toNat ≤ 8202) ∨ c = (Char.ofNat 8232) ∨
  c = (Char.ofNat 8233) ∨ c = (Char.ofNat 8239) ∨ c = (Char.ofNat 8287) ∨
  c = (Char.ofNat 12288) ∨ c = (Char.ofNat 65279)

/-- JavaScript `String.prototype.trim`: drop leading and trailing
whitespace. -/
def jsTrim (s : String) : String :=
  String.mk (((s.data.dropWhile jsWhitespace).reverse.dropWhile jsWhitespace).reverse)

/-- JavaScript `String.prototype.split` for a single-character separator
(the source only splits on a newline, a colon and a comma): cut the string
at every occurrence of the separator; the empty string splits to the
one-element list holding the empty string. -/
def jsSplitChar (sep : Char) (s : String) : List String :=
  (s.data.foldr
    (fun c acc =>
      match acc with
      | [] => [[c]]
      | cur :: rest => if c = sep then [] :: cur :: rest else (c :: cur) :: rest)
    [[]]).map String.mk

/-! ## Access guard (app.ts lines 24-28 and 42-52) -/

/-- The incoming request headers the guard reads: `origin`, `referer` and
`token`. A `none` models an absent header. -/
structure Headers where
  origin : Option String
  referer : Option String
  token : Option String
deriving DecidableEq, Repr

/-- The configuration the guard closes over: the allow-listed domain
(constant in the source), the extension identifier from the environment, and
`extension_token`, the hex SHA-256 digest of the configured token (app.ts
line 28). -/
structure Config where
  allowedOrigin : String
  allowedExtension : String
  extension_token : String
deriving DecidableEq, Repr

/-- Builds the configuration as app.ts lines 24-28 do: `allowedOrigin` is the
literal allow-listed domain, and `extension_token` is the digest of `TOKEN`
under `sha256hex`, the hex SHA-256 digest function of the crypto library
(an external primitive, passed as a parameter). -/
def mkConfig (sha256hex : String → String) (TOKEN allowedExtension : String) : Config :=
  { allowedOrigin := "https://simplifymytext.org"
    allowedExtension := allowedExtension
    extension_token := sha256hex TOKEN }

/-- Outcome of the middleware: pass the request on, or answer it directly
with a status and a message body. -/
inductive GuardResult
  | next
  | denied (status : Nat) (message : String)
deriving DecidableEq, Repr

/-- The access-denied message of app.ts line 50. -/
def accessDeniedMsg : String :=
  "Access denied: Requests from your origin are not allowed."

/-- The `checkOrigin` middleware of app.ts lines 42-52: take the origin
header, falling back to the referer; pass the request on when that value is
truthy and starts with the allowed origin, or starts with the allowed
extension while the token header equals `extension_token`, or starts with a
localhost prefix; otherwise respond 403 with the fixed message. -/
def checkOrigin (cfg : Config) (h : Headers) : GuardResult :=
  let origin := jsOr h.origin h.referer
  match origin with
  | some o =>
      if o ≠ "" ∧ (o.startsWith cfg.allowedOrigin ∨
          (o.startsWith cfg.allowedExtension ∧ h.token = some cfg.extension_token) ∨
          o.startsWith "http://localhost" ∨ o.startsWith "https://localhost")
      then .next
      else .denied 403 accessDeniedMsg
  | none => .denied 403 accessDeniedMsg

/-! ## HTTP responses and the environment of external collaborators -/

/-- The JSON bodies the handlers produce: a simplified-text payload, an
error object, a message object, or a word-info object. -/
inductive Body
  | simplifiedText (s : String)
  | errorMsg (m : String)
  | message (m : String)
  | wordInfo (word definition : String) (synonyms : List String)
deriving DecidableEq, Repr

/-- An HTTP response: status code and JSON body. -/
structure HttpResponse where
  status : Nat
  body : Body
deriving DecidableEq, Repr

/-- The audience enumeration `TargetAudiences` used by app.ts. The member
names appear in app.ts lines 66-70; the enum itself is imported from
./types, whose file is not present. Modelled from the spec: a closed
enumeration of the five audience categories (general public, students,
researchers, professionals, media). -/
inductive TargetAudiences
  | ScientistsResearchers
  | StudentsAcademics
  | IndustryProfessionals
  | JournalistsMedia
  | GeneralPublic
deriving DecidableEq, Repr

/-- Modelled from the spec: the string value each `TargetAudiences` member
stringifies to inside the template literal of `saveToRedis` (app.ts line
106); the enum definition in ./types is not present, so the values follow
the audience labels the spec lists. The claims proved below do not depend on
the exact strings. -/
def audienceValue : TargetAudiences → String
  | .ScientistsResearchers => "Scientists and Researchers"
  | .StudentsAcademics => "Students and Academics"
  | .IndustryProfessionals => "Industry Professionals"
  | .JournalistsMedia => "Journalists and Media Professionals"
  | .GeneralPublic => "General Public"

/-- Outcome of one POST to the completion API as `simplifyText` observes it:
a response whose first choice carries `content`, or a thrown error whose
computed message is carried (app.ts lines 88-97). -/
inductive ApiOutcome
  | success (content : String)
  | failure (message : String)
deriving DecidableEq, Repr

/-- Outcome of the completion call of /word-info: a response whose first
choice optionally carries content (the handler reads it with optional
chaining, app.ts line 186), or a thrown error. -/
inductive WordApiOutcome
  | success (content : Option String)
  | failure
deriving DecidableEq, Repr

/-- An uploaded file as multer delivers it: declared MIME type and raw
byte buffer. -/
structure UploadedFile where
  mimetype : String
  buffer : List Nat
deriving DecidableEq, Repr

/-- The external collaborators of the /simplify handler, as oracle
functions: the PDF and Word extraction helpers (./utils/fileUtils, out of
scope), UTF-8 decoding of a buffer, the URL validator (./utils/validateUrl,
out of scope), the completion API mapping the posted prompt to an outcome,
the redis SET outcome, plus the configured word limit and the current
timestamp `Date.now()`. -/
structure Env where
  wordLimit : Nat
  now : Nat
  extractTextFromPdf : List Nat → Except String String
  extractTextFromWord : List Nat → Except String String
  utf8Decode : List Nat → String
  validateUrl : String → Except String Unit
  api : String → ApiOutcome
  redisSet : String → String → Except String Unit

/-! ## Prompt building and the completion client (app.ts lines 61-102) -/

/-- The fixed instruction block of app.ts line 62, verbatim. -/
def instructionText : String :=
  "Do no write very long sentences. The language of the simplified text should match the language of the text I provide you with. If the provided text is a URL, you need to visit the URL, summarise the contents, and finally simplify the summary into plain language. Your response should only the contain the summary and nothing else."

/-- The audience-specific prompt phrases of the `targetAudience` record,
app.ts lines 65-71, verbatim. -/
def audiencePhrase : TargetAudiences → String
  | .ScientistsResearchers => "scientists and researchers"
  | .StudentsAcademics => "students and academics"
  | .IndustryProfessionals => "industry professionals"
  | .JournalistsMedia => "journalists and media professionals"
  | .GeneralPublic => "the general public (non-expert audience)"

/-- The user prompt template of app.ts lines 77-83: a leading newline, the
instruction to simplify for the audience, the trimmed input text in quotes,
and the instruction block. -/
def userPrompt (text : String) (userGroup : TargetAudiences) : String :=
  "\nSimplify the following text for " ++ audiencePhrase userGroup ++ ":\n\n\"" ++
    jsTrim text ++ "\"\n\nInstructions: " ++ instructionText ++ "\n  "

/-- `simplifyText` of app.ts lines 61-102: post the built prompt to the
completion API; on success return the trimmed content of the first choice,
on any thrown error rethrow with the prefix of line 99. -/
def simplifyText (env : Env) (text : String) (userGroup : TargetAudiences) :
    Except String String :=
  match env.api (userPrompt text userGroup) with
  | .success content => .ok (jsTrim content)
  | .failure m => .error ("Text simplification failed: " ++ m)

/-- The redis key built by `saveToRedis` (app.ts lines 104-108): the literal
prefix, the original text, the audience value and the timestamp, joined by
the separator. -/
def redisKey (originalText : String) (targetAudience : TargetAudiences) (now : Nat) :
    String :=
  "prompt|:|" ++ originalText ++ "|:|" ++ audienceValue targetAudience ++ "|:|" ++
    toString now

/-! ## The /simplify handler (app.ts lines 110-159) -/

/-- The JS truthy value of a possibly-absent string: `none` when falsy,
otherwise the string itself. -/
def truthyVal : Option String → Option String
  | none => none
  | some s => if s = "" then none else some s

/-- `handleFileInput` of app.ts lines 148-159: dispatch on the declared MIME
type to the PDF extractor, the Word extractor, or UTF-8 decoding of the
buffer; any other type throws. -/
def handleFileInput (env : Env) (file : UploadedFile) : Except String String :=
  if file.mimetype = "application/pdf" then
    env.extractTextFromPdf file.buffer
  else if file.mimetype = "application/vnd.openxmlformats-officedocument.wordprocessingml.document" then
    env.extractTextFromWord file.buffer
  else if file.mimetype = "text/plain" then
    .ok (env.utf8Decode file.buffer)
  else
    .error "Unsupported file type"

/-- A /simplify request body: audience, and the three optional inputs. -/
structure SimplifyRequest where
  audience : TargetAudiences
  text : Option String
  file : Option UploadedFile
  url : Option String

/-- The input resolution of app.ts lines 120-125: file first, then a truthy
url, then truthy text; otherwise throw. -/
def resolveInput (env : Env) (req : SimplifyRequest) : Except String String :=
  match req.file with
  | some f => handleFileInput env f
  | none =>
      match truthyVal req.url with
      | some u => .ok u
      | none =>
          match truthyVal req.text with
          | some t => .ok t
          | none => .error "No valid input provided"

/-- The catch block of app.ts lines 140-144: respond 500 with the error
message, falling back to the fixed phrase when the message is falsy. -/
def catchMsg (m : String) : String :=
  if m = "" then "An error occurred during text simplification." else m

/-- The word-limit error message of app.ts line 129. -/
def wordLimitMsg (wordLimit : Nat) : String :=
  "Text exceeds the word limit of " ++ toString wordLimit ++ " characters."

/-- The /simplify handler of app.ts lines 110-145 as a pure function from
the request and the environment to the HTTP response together with the list
of cache writes performed. Mirrors the source: resolve the input (file >
url > text); when the url field is falsy check the resolved text against the
word limit, otherwise validate the url; simplify; save to redis; respond.
Every thrown error lands in the catch block, which responds 500. -/
def simplifyHandler (env : Env) (req : SimplifyRequest) :
    HttpResponse × List (String × String) :=
  match resolveInput env req with
  | .error m => (⟨500, .errorMsg (catchMsg m)⟩, [])
  | .ok inputText =>
      if strTruthy req.url = false ∧ inputText.length > env.wordLimit then
        (⟨400, .errorMsg (wordLimitMsg env.wordLimit)⟩, [])
      else
        match (match truthyVal req.url with
               | some u => env.validateUrl u
               | none => .ok ()) with
        | .error m => (⟨500, .errorMsg (catchMsg m)⟩, [])
        | .ok _ =>
            match simplifyText env inputText req.audience with
            | .error m => (⟨500, .errorMsg (catchMsg m)⟩, [])
            | .ok simplified =>
                let key := redisKey inputText req.audience env.now
                match env.redisSet key simplified with
                | .error m => (⟨500, .errorMsg (catchMsg m)⟩, [])
                | .ok _ => (⟨200, .simplifiedText simplified⟩, [(key, simplified)])

/-! ## The /word-info handler (app.ts lines 162-198) -/

/-- The word-info prompt template of app.ts lines 169-173, verbatim. -/
def wordInfoPrompt (word : String) : String :=
  "\n  Provide the following details for the word \"" ++ word ++ "\":\n  1. A clear and concise definition in plain language. If no definition exists, say \"No definitions found.\"\n  2. A list of synonyms (if any). If there are no synonyms, say \"No synonyms found.\"\n"

/-- The response parse of app.ts lines 189-191: split the content on
newlines, take from each line the segment after the first colon (trimmed,
absent when the line has no colon), destructure the first two entries, then
apply the fallbacks: a falsy definition becomes the placeholder, a truthy
synonyms segment is comma-split and trimmed, a falsy one becomes the
one-element placeholder list. -/
def wordInfoParse (responseContent : String) : String × List String :=
  let parts := (jsSplitChar '\n' responseContent).map
    (fun line => ((jsSplitChar ':' line)[1]?).map jsTrim)
  let definitionMatch : Option String := (parts[0]?).join
  let synonymsMatch : Option String := (parts[1]?).join
  let definition :=
    match definitionMatch with
    | some d => if d = "" then "Definition not found" else d
    | none => "Definition not found"
  let synonyms :=
    match synonymsMatch with
    | some s => if s = "" then ["No synonyms found"] else (jsSplitChar ',' s).map jsTrim
    | none => ["No synonyms found"]
  (definition, synonyms)

/-- The /word-info handler of app.ts lines 162-198: reject a falsy word with
400 before any API call; otherwise post the prompt, read the first choice
content with a fallback to the empty string, parse it, and respond with the
word, definition and synonyms; a thrown error yields 500. -/
def wordInfoHandler (word : Option String) (api : WordApiOutcome) : HttpResponse :=
  match truthyVal word with
  | none => ⟨400, .errorMsg "No word provided"⟩
  | some w =>
      match api with
      | .failure => ⟨500, .errorMsg "Error fetching word information"⟩
      | .success contentOpt =>
          let responseContent := contentOpt.getD ""
          let p := wordInfoParse responseContent
          ⟨200, .wordInfo w p.1 p.2⟩

/-! ## The /feedback handler (app.ts lines 202-213) -/

/-- A JavaScript number as the feedback handler sees the rating: NaN (which
also covers a missing field, since `isNaN(undefined)` holds) or a finite
numeric value. -/
inductive JsNumber
  | nan
  | num (q : ℚ)
deriving DecidableEq, Repr

/-- JavaScript `isNaN` on the model. -/
def jsIsNaN : JsNumber → Bool
  | .nan => true
  | .num _ => false

/-- JavaScript `<` against a constant: false for NaN. -/
def jsLtNum : JsNumber → ℚ → Bool
  | .nan, _ => false
  | .num q, c => decide (q < c)

/-- JavaScript `>` against a constant: false for NaN. -/
def jsGtNum : JsNumber → ℚ → Bool
  | .nan, _ => false
  | .num q, c => decide (c < q)

/-- The /feedback handler of app.ts lines 202-213: 400 when the rating is
NaN, below 1 or above 10; otherwise 200 with the confirmation message. -/
def feedbackHandler (rating : JsNumber) : HttpResponse :=
  if jsIsNaN rating || jsLtNum rating 1 || jsGtNum rating 10 then
    ⟨400, .errorMsg "Rating must be a number between 1 and 10"⟩
  else
    ⟨200, .message "Rating submitted successfully"⟩

/-! ## Claim-side restatement of the word-info parse

The claim describes the parse line-first (take the first two lines, then the
part after the colon of each); the code maps the colon-split over every line
and then destructures the first two entries. The two are proved equal
below. -/

/-- The definition field as the claim describes it: the trimmed part after
the colon of the first line, falling back to the placeholder when the line
or the colon part is absent or trims to the empty string. -/
def claimedDefinition (responseContent : String) : String :=
  match (jsSplitChar '\n' responseContent)[0]? with
  | none => "Definition not found"
  | some line =>
      match (jsSplitChar ':' line)[1]? with
      | none => "Definition not found"
      | some seg => if jsTrim seg = "" then "Definition not found" else jsTrim seg

/-- The synonyms field as the claim describes it: the comma-split, trimmed
part after the colon of the second line, falling back to the one-element
placeholder list when the line or the colon part is absent or trims to the
empty string. -/
def claimedSynonyms (responseContent : String) : List String :=
  match (jsSplitChar '\n' responseContent)[1]? with
  | none => ["No synonyms found"]
  | some line =>
      match (jsSplitChar ':' line)[1]? with
      | none => ["No synonyms found"]
      | some seg =>
          if jsTrim seg = "" then ["No synonyms found"]
          else (jsSplitChar ',' (jsTrim seg)).map jsTrim

/-! ## Concrete environments for evaluating the handlers -/

/-- A benign concrete environment: generous word limit, extraction and URL
validation succeed, the completion API answers with a fixed content, the
redis SET succeeds. -/
def envBase : Env where
  wordLimit := 5000
  now := 0
  extractTextFromPdf := fun _ => .ok "pdf text"
  extractTextFromWord := fun _ => .ok "word text"
  utf8Decode := fun _ => "plain text"
  validateUrl := fun _ => .ok ()
  api := fun _ => .success "Simplified."
  redisSet := fun _ _ => .ok ()

/-- The benign environment with a word limit of 5 and a ten-character
plain-text extraction, so that an uploaded text file exceeds the limit. -/
def envSmallLimit : Env :=
  { envBase with wordLimit := 5, utf8Decode := fun _ => "0123456789" }

/-- The benign environment with a failing URL validator. -/
def envBadUrl : Env :=
  { envBase with validateUrl := fun _ => .error "Invalid URL" }

/-! ## C1: the access guard -/

/-- C1. The access guard passes a request on exactly when the
origin-or-referer value is present (a nonempty string) and either starts
with the allow-listed domain, or starts with a localhost prefix, or starts
with the allowed extension identifier while the token header equals the
SHA-256 digest of the configured token; in every other case it responds 403
with the fixed access-denied message. The digest function is the external
crypto primitive, passed as a parameter. -/
theorem checkOrigin_passes_iff (sha256hex : String → String) (TOKEN ext : String)
    (h : Headers) :
    (checkOrigin (mkConfig sha256hex TOKEN ext) h = .next ↔
      ∃ o, jsOr h.origin h.referer = some o ∧ o ≠ "" ∧
        (o.startsWith "https://simplifymytext.org" = true ∨
         o.startsWith "http://localhost" = true ∨
         o.startsWith "https://localhost" = true ∨
         (o.startsWith ext = true ∧ h.token = some (sha256hex TOKEN)))) ∧
    (checkOrigin (mkConfig sha256hex TOKEN ext) h = .next ∨
     checkOrigin (mkConfig sha256hex TOKEN ext) h = .denied 403 accessDeniedMsg) := by
  unfold checkOrigin mkConfig
  cases hj : jsOr h.origin h.referer with
  | none =>
      refine ⟨⟨fun habs => GuardResult.noConfusion habs, ?_⟩, Or.inr rfl⟩
      rintro ⟨o', ho', -, -⟩
      exact Option.noConfusion ho'
  | some o =>
      dsimp only
      constructor
      · split_ifs with hc
        · refine ⟨fun _ => ⟨o, rfl, hc.1, ?_⟩, fun _ => rfl⟩
          rcases hc.2 with ha | ⟨he, ht⟩ | hb | hc3
          · exact Or.inl ha
          · exact Or.inr (Or.inr (Or.inr ⟨he, ht⟩))
          · exact Or.inr (Or.inl hb)
          · exact Or.inr (Or.inr (Or.inl hc3))
        · refine ⟨fun habs => absurd habs (by simp), ?_⟩
          rintro ⟨o', ho', hne, hdisj⟩
          obtain rfl : o = o' := Option.some.inj ho'
          refine absurd ⟨hne, ?_⟩ hc
          rcases hdisj with ha | hb | hc3 | ⟨he, ht⟩
          · exact Or.inl ha
          · exact Or.inr (Or.inr (Or.inl hb))
          · exact Or.inr (Or.inr (Or.inr hc3))
          · exact Or.inr (Or.inl ⟨he, ht⟩)
      · split_ifs
        · exact Or.inl rfl
        · exact Or.inr rfl

/-! ## Helper lemmas -/

theorem truthyVal_eq_none (o : Option String) (h : strTruthy o = false) :
    truthyVal o = none := by
  cases o with
  | none => rfl
  | some s =>
      simp only [strTruthy, decide_eq_false_iff_not, not_not] at h
      simp [truthyVal, h]

theorem strTruthy_of_truthyVal (o : Option String) (u : String)
    (h : truthyVal o = some u) : strTruthy o = true := by
  cases o with
  | none => exact Option.noConfusion h
  | some s =>
      simp only [truthyVal] at h
      by_cases hs : s = ""
      · rw [if_pos hs] at h
        exact Option.noConfusion h
      · simp [strTruthy, hs]

/-! ## C2: input priority and the all-absent case -/

/-- C2 counterexample: a request with none of file, url and text is answered
with status 500 carrying the no-valid-input message, not with status 400 as
the claim states. -/
theorem simplify_noInput_counterexample :
    simplifyHandler envBase
        { audience := .GeneralPublic, text := none, file := none, url := none } =
      (⟨500, .errorMsg "No valid input provided"⟩, []) ∧
    (simplifyHandler envBase
        { audience := .GeneralPublic, text := none, file := none, url := none }).1.status ≠ 400 := by
  exact ⟨rfl, by decide⟩

/-- C2 (amended). The /simplify input resolver selects the inputs with
priority file > url > text, and when all three of file, url and text are
absent or falsy the request fails with the no-valid-input error and HTTP
status 500 (the thrown error is converted by the catch-all handler). -/
theorem simplify_input_priority (env : Env) (req : SimplifyRequest) :
    (∀ f, req.file = some f → resolveInput env req = handleFileInput env f) ∧
    (∀ u, req.file = none → truthyVal req.url = some u →
      resolveInput env req = Except.ok u) ∧
    (∀ t, req.file = none → truthyVal req.url = none → truthyVal req.text = some t →
      resolveInput env req = Except.ok t) ∧
    (req.file = none → truthyVal req.url = none → truthyVal req.text = none →
      simplifyHandler env req = (⟨500, .errorMsg "No valid input provided"⟩, [])) := by
  refine ⟨?_, ?_, ?_, ?_⟩
  · intro f hf
    unfold resolveInput
    rw [hf]
  · intro u hf hu
    unfold resolveInput
    rw [hf, hu]
  · intro t hf hu ht
    unfold resolveInput
    rw [hf, hu, ht]
  · intro hf hu ht
    unfold simplifyHandler resolveInput
    rw [hf, hu, ht]
    rfl

/-- C2 witness: the amended theorem applied at concrete requests for each of
the four branches. -/
theorem simplify_input_priority_witness :
    resolveInput envBase
        { audience := .GeneralPublic, text := some "t",
          file := some ⟨"text/plain", [104]⟩, url := some "u" } =
      handleFileInput envBase ⟨"text/plain", [104]⟩ ∧
    resolveInput envBase
        { audience := .GeneralPublic, text := some "t", file := none,
          url := some "https://e.org" } =
      Except.ok "https://e.org" ∧
    resolveInput envBase
        { audience := .GeneralPublic, text := some "hello", file := none, url := none } =
      Except.ok "hello" ∧
    simplifyHandler envBase
        { audience := .GeneralPublic, text := none, file := none, url := none } =
      (⟨500, .errorMsg "No valid input provided"⟩, []) := by
  refine ⟨?_, ?_, ?_, ?_⟩
  · exact (simplify_input_priority envBase _).1 _ rfl
  · exact (simplify_input_priority envBase _).2.1 _ rfl rfl
  · exact (simplify_input_priority envBase _).2.2.1 _ rfl rfl rfl
  · exact (simplify_input_priority envBase _).2.2.2 rfl rfl rfl

/-! ## C3: the word-limit check -/

/-- C3 counterexample: a request carrying both a plain-text file whose
extracted ten-character text exceeds the five-character limit and a truthy
url field succeeds with status 200: the length check is keyed on the url
field being falsy, not on whether the resolved payload is a URL. -/
theorem simplify_wordLimit_counterexample :
    (simplifyHandler envSmallLimit
        { audience := .GeneralPublic, text := none,
          file := some ⟨"text/plain", []⟩, url := some "https://ok.example" }).1.status = 200 ∧
    resolveInput envSmallLimit
        { audience := .GeneralPublic, text := none,
          file := some ⟨"text/plain", []⟩, url := some "https://ok.example" } =
      Except.ok "0123456789" ∧
    ("0123456789" : String).length > envSmallLimit.wordLimit := by
  exact ⟨rfl, rfl, by decide⟩

/-- C3 (amended). For every /simplify request whose url field is falsy, if
the resolved payload is longer than the configured word limit the handler
responds 400 with the message naming the limit, and a payload within the
limit is never answered with status 400. -/
theorem simplify_word_limit (env : Env) (req : SimplifyRequest) (inputText : String)
    (hres : resolveInput env req = Except.ok inputText)
    (hurl : strTruthy req.url = false) :
    (inputText.length > env.wordLimit →
      simplifyHandler env req = (⟨400, .errorMsg (wordLimitMsg env.wordLimit)⟩, [])) ∧
    (inputText.length ≤ env.wordLimit → (simplifyHandler env req).1.status ≠ 400) := by
  have hun := truthyVal_eq_none req.url hurl
  unfold simplifyHandler
  rw [hres]
  dsimp only
  constructor
  · intro hlen
    rw [if_pos ⟨hurl, hlen⟩]
  · intro hlen
    have hneg : ¬(strTruthy req.url = false ∧ inputText.length > env.wordLimit) := by
      rintro ⟨-, h2⟩
      omega
    rw [if_neg hneg, hun]
    dsimp only
    cases hs : simplifyText env inputText req.audience with
    | error m => simp
    | ok s =>
        dsimp only
        cases hr : env.redisSet (redisKey inputText req.audience env.now) s with
        | error m => simp
        | ok _ => simp

/-- C3 witness: a six-character text against a five-character limit is
rejected with 400 naming the limit; a short text is not answered with
400. -/
theorem simplify_word_limit_witness :
    simplifyHandler envSmallLimit
        { audience := .GeneralPublic, text := some "012345", file := none, url := none } =
      (⟨400, .errorMsg (wordLimitMsg envSmallLimit.wordLimit)⟩, []) ∧
    (simplifyHandler envBase
        { audience := .GeneralPublic, text := some "hello", file := none,
          url := none }).1.status ≠ 400 := by
  constructor
  · exact (simplify_word_limit envSmallLimit
      { audience := .GeneralPublic, text := some "012345", file := none, url := none }
      "012345" rfl rfl).1 (by decide)
  · exact (simplify_word_limit envBase
      { audience := .GeneralPublic, text := some "hello", file := none, url := none }
      "hello" rfl rfl).2 (by decide)

/-! ## C4: MIME-type dispatch for file input -/

/-- C4. File input dispatches on the declared MIME type to exactly three
extraction strategies: application/pdf goes to the PDF extractor, the Word
MIME type to the Word extractor, text/plain to UTF-8 decoding of the
buffer; for any other MIME type the request is answered with status 500
carrying the unsupported-file-type message and nothing is cached. -/
theorem handleFileInput_dispatch (env : Env) (buf : List Nat) (m : String)
    (aud : TargetAudiences) (t u : Option String)
    (h1 : m ≠ "application/pdf")
    (h2 : m ≠ "application/vnd.openxmlformats-officedocument.wordprocessingml.document")
    (h3 : m ≠ "text/plain") :
    handleFileInput env ⟨"application/pdf", buf⟩ = env.extractTextFromPdf buf ∧
    handleFileInput env
        ⟨"application/vnd.openxmlformats-officedocument.wordprocessingml.document", buf⟩ =
      env.extractTextFromWord buf ∧
    handleFileInput env ⟨"text/plain", buf⟩ = Except.ok (env.utf8Decode buf) ∧
    simplifyHandler env { audience := aud, text := t, file := some ⟨m, buf⟩, url := u } =
      (⟨500, .errorMsg "Unsupported file type"⟩, []) := by
  refine ⟨rfl, ?_, rfl, ?_⟩
  · simp [handleFileInput]
  · unfold simplifyHandler resolveInput handleFileInput
    dsimp only
    rw [if_neg h1, if_neg h2, if_neg h3]
    rfl

/-- C4 witness: the dispatch theorem applied at the MIME type image/png. -/
theorem handleFileInput_dispatch_witness :
    handleFileInput envBase ⟨"application/pdf", [104]⟩ =
      envBase.extractTextFromPdf [104] ∧
    handleFileInput envBase
        ⟨"application/vnd.openxmlformats-officedocument.wordprocessingml.document", [104]⟩ =
      envBase.extractTextFromWord [104] ∧
    handleFileInput envBase ⟨"text/plain", [104]⟩ =
      Except.ok (envBase.utf8Decode [104]) ∧
    simplifyHandler envBase
        { audience := .GeneralPublic, text := none, file := some ⟨"image/png", [104]⟩,
          url := none } =
      (⟨500, .errorMsg "Unsupported file type"⟩, []) :=
  handleFileInput_dispatch envBase [104] "image/png" .GeneralPublic none none
    (by decide) (by decide) (by decide)

/-! ## C5: the returned simplifiedText is the trimmed first-choice content -/

/-- C5. When the completion API answers with a first choice whose message
content is c, every successful /simplify response carries exactly the
whitespace-trimmed c as its simplifiedText, with no other
transformation. -/
theorem simplify_returns_trimmed_content (env : Env) (req : SimplifyRequest) (c : String)
    (hapi : env.api = fun _ => ApiOutcome.success c)
    (h200 : (simplifyHandler env req).1.status = 200) :
    (simplifyHandler env req).1 = ⟨200, .simplifiedText (jsTrim c)⟩ := by
  unfold simplifyHandler at h200 ⊢
  cases hres : resolveInput env req with
  | error m =>
      rw [hres] at h200
      exact absurd h200 (by simp)
  | ok inputText =>
      rw [hres] at h200
      dsimp only at h200 ⊢
      split_ifs at h200 ⊢ with hc
      · exact absurd h200 (by simp)
      · have hst : simplifyText env inputText req.audience = Except.ok (jsTrim c) := by
          unfold simplifyText
          rw [hapi]
        rw [hst] at h200 ⊢
        cases huc : (match truthyVal req.url with
                     | some u => env.validateUrl u
                     | none => Except.ok ()) with
        | error m =>
            rw [huc] at h200
            simp at h200
        | ok _ =>
            rw [huc] at h200
            dsimp only at h200 ⊢
            cases hr : env.redisSet (redisKey inputText req.audience env.now) (jsTrim c) with
            | error m =>
                rw [hr] at h200
                simp at h200
            | ok _ =>
                rfl

/-- C5 witness: with the API answering a padded content, the successful
response carries the trimmed content. -/
theorem simplify_returns_trimmed_content_witness :
    (simplifyHandler { envBase with api := fun _ => ApiOutcome.success "  hello " }
        { audience := .GeneralPublic, text := some "t", file := none, url := none }).1 =
      ⟨200, .simplifiedText (jsTrim "  hello ")⟩ :=
  simplify_returns_trimmed_content
    { envBase with api := fun _ => ApiOutcome.success "  hello " }
    { audience := .GeneralPublic, text := some "t", file := none, url := none }
    "  hello " rfl (by decide)

/-! ## C6: feedback rating validation -/

/-- C6. A /feedback rating that is NaN or lies outside the interval one to
ten yields 400 with the error message, and a numeric rating within the
interval inclusive yields 200 with the confirmation message. -/
theorem feedback_rating_ranges (r : JsNumber) :
    (feedbackHandler r = ⟨400, .errorMsg "Rating must be a number between 1 and 10"⟩ ↔
      r = .nan ∨ ∃ q, r = .num q ∧ (q < 1 ∨ 10 < q)) ∧
    (feedbackHandler r = ⟨200, .message "Rating submitted successfully"⟩ ↔
      ∃ q, r = .num q ∧ 1 ≤ q ∧ q ≤ 10) := by
  cases r with
  | nan =>
      constructor
      · simp [feedbackHandler, jsIsNaN]
      · simp [feedbackHandler, jsIsNaN]
  | num q =>
      by_cases hout : q < 1 ∨ 10 < q
      · have hcond : (jsIsNaN (.num q) || jsLtNum (.num q) 1 || jsGtNum (.num q) 10) = true := by
          rcases hout with h | h <;> simp [jsIsNaN, jsLtNum, jsGtNum, h]
        constructor
        · rw [feedbackHandler, if_pos hcond]
          simp only [true_iff]
          exact Or.inr ⟨q, rfl, hout⟩
        · rw [feedbackHandler, if_pos hcond]
          constructor
          · intro habs
            exact absurd habs (by simp)
          · rintro ⟨q', hq, h1, h2⟩
            obtain rfl : q = q' := by injection hq
            rcases hout with h | h <;> linarith
      · push_neg at hout
        have hcond : (jsIsNaN (.num q) || jsLtNum (.num q) 1 || jsGtNum (.num q) 10) = false := by
          simp [jsIsNaN, jsLtNum, jsGtNum, not_lt.mpr hout.1, not_lt.mpr hout.2]
        constructor
        · rw [feedbackHandler, if_neg (by simp [hcond])]
          constructor
          · intro habs
            exact absurd habs (by simp)
          · rintro (h | ⟨q', hq, hrange⟩)
            · exact JsNumber.noConfusion h
            · obtain rfl : q = q' := by injection hq
              rcases hrange with h | h <;> linarith [hout.1, hout.2]
        · rw [feedbackHandler, if_neg (by simp [hcond])]
          simp only [true_iff]
          exact ⟨q, rfl, hout.1, hout.2⟩

/-! ## C7: the cache write of a successful simplification -/

theorem simplifyHandler_shape (env : Env) (req : SimplifyRequest) :
    (∃ inputText s, resolveInput env req = Except.ok inputText ∧
      simplifyHandler env req =
        (⟨200, .simplifiedText s⟩, [(redisKey inputText req.audience env.now, s)])) ∨
    simplifyHandler env req = (⟨400, .errorMsg (wordLimitMsg env.wordLimit)⟩, []) ∨
    (∃ m, simplifyHandler env req = (⟨500, .errorMsg (catchMsg m)⟩, [])) := by
  unfold simplifyHandler
  cases hres : resolveInput env req with
  | error m => exact Or.inr (Or.inr ⟨m, rfl⟩)
  | ok inputText =>
      dsimp only
      split_ifs with hc
      · exact Or.inr (Or.inl rfl)
      · cases huc : (match truthyVal req.url with
                     | some u => env.validateUrl u
                     | none => Except.ok ()) with
        | error m => exact Or.inr (Or.inr ⟨m, rfl⟩)
        | ok _ =>
            dsimp only
            cases hs : simplifyText env inputText req.audience with
            | error m => exact Or.inr (Or.inr ⟨m, rfl⟩)
            | ok s =>
                dsimp only
                cases hr : env.redisSet (redisKey inputText req.audience env.now) s with
                | error m => exact Or.inr (Or.inr ⟨m, rfl⟩)
                | ok _ => exact Or.inl ⟨inputText, s, rfl, rfl⟩

/-- C7. After every successful simplification, and only then, exactly one
cache entry is written; its key is the concatenation of the fixed prefix,
the original resolved input text, the audience category value and the
timestamp, joined by the fixed separator, and its value is the simplified
text. -/
theorem simplify_cache_write (env : Env) (req : SimplifyRequest) :
    (∀ s, (simplifyHandler env req).1 = ⟨200, .simplifiedText s⟩ →
      ∃ inputText, resolveInput env req = Except.ok inputText ∧
        (simplifyHandler env req).2 =
          [("prompt|:|" ++ inputText ++ "|:|" ++ audienceValue req.audience ++ "|:|" ++
              toString env.now, s)]) ∧
    ((simplifyHandler env req).1.status ≠ 200 → (simplifyHandler env req).2 = []) := by
  rcases simplifyHandler_shape env req with ⟨it, s', hres, he⟩ | he | ⟨m, he⟩
  · constructor
    · intro s h200
      rw [he] at h200
      obtain rfl : s' = s := by
        have := congrArg HttpResponse.body h200
        injection this
      refine ⟨it, hres, ?_⟩
      rw [he]
      rfl
    · intro hne
      exact absurd (by rw [he]) hne
  · constructor
    · intro s h200
      rw [he] at h200
      exact absurd (congrArg HttpResponse.body h200) (by simp)
    · intro hne
      rw [he]
  · constructor
    · intro s h200
      rw [he] at h200
      exact absurd (congrArg HttpResponse.body h200) (by simp)
    · intro hne
      rw [he]

/-- C7 witness: a concrete successful request writes exactly the composite
key with the simplified value, and a concrete failing request writes
nothing. -/
theorem simplify_cache_write_witness :
    (∃ inputText, resolveInput envBase
        { audience := .GeneralPublic, text := some "hello", file := none, url := none } =
          Except.ok inputText ∧
      (simplifyHandler envBase
        { audience := .GeneralPublic, text := some "hello", file := none, url := none }).2 =
        [("prompt|:|" ++ inputText ++ "|:|" ++ audienceValue TargetAudiences.GeneralPublic ++
            "|:|" ++ toString envBase.now, "Simplified.")]) ∧
    (simplifyHandler envBase
        { audience := .GeneralPublic, text := none, file := none, url := none }).2 = [] := by
  constructor
  · exact (simplify_cache_write envBase
      { audience := .GeneralPublic, text := some "hello", file := none, url := none }).1
      "Simplified." rfl
  · exact (simplify_cache_write envBase
      { audience := .GeneralPublic, text := none, file := none, url := none }).2
      (by decide)

/-! ## C8: the word-info response parse -/

theorem wordInfoParse_eq_claimed (rc : String) :
    wordInfoParse rc = (claimedDefinition rc, claimedSynonyms rc) := by
  unfold wordInfoParse claimedDefinition claimedSynonyms
  dsimp only
  rw [List.getElem?_map, List.getElem?_map]
  cases h0 : (jsSplitChar '\n' rc)[0]? with
  | none =>
      cases h1 : (jsSplitChar '\n' rc)[1]? with
      | none => rfl
      | some line1 =>
          cases h1c : (jsSplitChar ':' line1)[1]? with
          | none => simp [h1c]
          | some seg => simp [h1c]
  | some line0 =>
      cases h0c : (jsSplitChar ':' line0)[1]? with
      | none =>
          cases h1 : (jsSplitChar '\n' rc)[1]? with
          | none => simp [h0c]
          | some line1 =>
              cases h1c : (jsSplitChar ':' line1)[1]? with
              | none => simp [h0c, h1c]
              | some seg => simp [h0c, h1c]
      | some seg0 =>
          cases h1 : (jsSplitChar '\n' rc)[1]? with
          | none => simp [h0c]
          | some line1 =>
              cases h1c : (jsSplitChar ':' line1)[1]? with
              | none => simp [h0c, h1c]
              | some seg => simp [h0c, h1c]

/-- C8. For a truthy queried word, the /word-info endpoint answers 200 with
the queried word and exactly the claim-described parse of the reply content:
the trimmed part after the colon of the first line as the definition and the
comma-split trimmed part after the colon of the second line as the synonyms,
each falling back to its placeholder when the expected format is absent; a
missing content field is treated as the empty reply, which yields both
placeholders. -/
theorem wordInfo_parse_spec (w : String) (content : Option String) (hw : w ≠ "") :
    wordInfoHandler (some w) (.success content) =
      ⟨200, .wordInfo w (claimedDefinition (content.getD ""))
        (claimedSynonyms (content.getD ""))⟩ ∧
    claimedDefinition "" = "Definition not found" ∧
    claimedSynonyms "" = ["No synonyms found"] := by
  refine ⟨?_, by decide, by decide⟩
  unfold wordInfoHandler truthyVal
  dsimp only
  rw [if_neg hw]
  dsimp only
  rw [wordInfoParse_eq_claimed]

/-- C8 witness: the parse theorem applied to a concrete two-line reply and
evaluated: the definition is the trimmed part after the first colon and the
synonyms are comma-split and trimmed. -/
theorem wordInfo_parse_spec_witness :
    wordInfoHandler (some "apple") (.success (some "Definition: a fruit\nSynonyms: pome , crab")) =
      ⟨200, .wordInfo "apple"
        (claimedDefinition "Definition: a fruit\nSynonyms: pome , crab")
        (claimedSynonyms "Definition: a fruit\nSynonyms: pome , crab")⟩ ∧
    claimedDefinition "Definition: a fruit\nSynonyms: pome , crab" = "a fruit" ∧
    claimedSynonyms "Definition: a fruit\nSynonyms: pome , crab" = ["pome", "crab"] := by
  refine ⟨(wordInfo_parse_spec "apple"
    (some "Definition: a fruit\nSynonyms: pome , crab") (by decide)).1, by decide, by decide⟩

/-! ## C9: failure conversion and atomicity -/

/-- C9 counterexample: a URL-validation failure, a validation failure of the
request, is answered with status 500, not with status 400 as the claim
assigns to validation failures. -/
theorem simplify_urlValidation_counterexample :
    simplifyHandler envBadUrl
        { audience := .GeneralPublic, text := none, file := none, url := some "notaurl" } =
      (⟨500, .errorMsg "Invalid URL"⟩, []) ∧
    (simplifyHandler envBadUrl
        { audience := .GeneralPublic, text := none, file := none,
          url := some "notaurl" }).1.status ≠ 400 := by
  exact ⟨rfl, by decide⟩

/-- C9 (amended). Every /simplify request is answered in exactly one of
three ways: fully successfully with status 200, a simplifiedText body and
exactly one cache write whose value is that text; with status 400 and the
word-limit error body and no cache write; or with status 500 and an error
body and no cache write. In particular every failure is converted to a JSON
error body, 400 is used only for the word-limit validation (thrown errors,
including the missing-input and URL validation failures, are answered 500),
and the cache is written exactly when the request fully succeeds. -/
theorem simplify_atomic_responses (env : Env) (req : SimplifyRequest) :
    (∃ s key, simplifyHandler env req = (⟨200, .simplifiedText s⟩, [(key, s)])) ∨
    simplifyHandler env req = (⟨400, .errorMsg (wordLimitMsg env.wordLimit)⟩, []) ∨
    (∃ m, simplifyHandler env req = (⟨500, .errorMsg m⟩, [])) := by
  rcases simplifyHandler_shape env req with ⟨it, s, _, he⟩ | he | ⟨m, he⟩
  · exact Or.inl ⟨s, redisKey it req.audience env.now, he⟩
  · exact Or.inr (Or.inl he)
  · exact Or.inr (Or.inr ⟨catchMsg m, he⟩)

/-! ## C10: missing word on /word-info -/

/-- C10. A /word-info request whose word parameter is absent or empty is
answered 400 with the no-word-provided error body, uniformly in the
completion API outcome: the response is produced before and independently of
any API call. -/
theorem wordInfo_missing_word (api : WordApiOutcome) :
    wordInfoHandler none api = ⟨400, .errorMsg "No word provided"⟩ ∧
    wordInfoHandler (some "") api = ⟨400, .errorMsg "No word provided"⟩ :=
  ⟨rfl, rfl⟩

end Klartext
